import Mathlib

/-!
Verification of the `powar` battery-status tool (src/main.rs) against its
specification.  The program enumerates entries under /sys/class/power_supply,
keeps those whose `type` attribute is "Battery", prints one line per battery
and an estimated combined runtime.

Shallow embedding choices:
* The filesystem is a function from a path (a list of segments, mirroring
  `PathBuf`) to `Option String`: `none` models both a missing file and an
  I/O failure of `File::open` / `read_to_string`.
* `Result<T, PowerError>` becomes `Except PowerError`; a panic through
  `.expect(..)` in `main` / `combined_runtime` becomes `none` in `Option`.
* Rust `f64` is modelled by `F64`: NaN, signed infinities, and finite
  values as exact rationals lying on the binary64 grid.  `roundF64`
  implements IEEE round-to-nearest-ties-to-even with gradual underflow and
  overflow to infinity, over exact rationals; `F64.add`, `F64.mul` and
  `F64.div` round their exact result, and `parse_f64` rounds the exact
  decimal value, matching Rust's correctly rounded `f64::from_str`.
  Signed zero is not modelled (no verified path distinguishes -0.0).
  `as u64` uses the saturating semantics (NaN to 0, truncation toward
  zero, clamping to [0, 2^64-1]).
* The generic `read_prop<T: FromStr>` becomes `read_prop` taking the `T`
  parser as an explicit `String → Option α` argument; the three
  instantiations used by the program (`String`, `i8`, `f64`) are embedded
  as `parseString`, `parse_i8`, `parse_f64` following the stdlib `FromStr`
  grammars.
-/

attribute [local semireducible] Rat.add Rat.mul Rat.inv Rat.sub Rat.ofScientific

set_option maxRecDepth 100000

set_option exponentiation.threshold 1100

/-- Unicode white space, as used by Rust `char::is_whitespace`
(the `White_Space` property). -/
def isRustWhitespace (c : Char) : Bool :=
  c = '\t' || c = '\n' || c = '\x0b' || c = '\x0c' || c = '\r' || c = ' ' ||
  c = '\u0085' || c = '\u00A0' || c = '\u1680' ||
  (decide ('\u2000' ≤ c) && decide (c ≤ '\u200A')) ||
  c = '\u2028' || c = '\u2029' || c = '\u202F' || c = '\u205F' || c = '\u3000'

/-- Rust `str::trim_right`: strip trailing (not leading) whitespace. -/
def trim_right (s : String) : String :=
  String.mk ((s.data.reverse.dropWhile isRustWhitespace).reverse)

/-- Numeric value of a list of ASCII digits, most significant first. -/
def digitsVal (l : List Char) : Nat :=
  l.foldl (fun a c => a * 10 + (c.toNat - '0'.toNat)) 0

/-- `FromStr` for `String` (`std::string::ParseError` is uninhabited,
parsing a string as a `String` never fails). -/
def parseString (s : String) : Option String := some s

/-- Split an optional leading `+`/`-` sign; `true` means negative. -/
def splitSign (cs : List Char) : Bool × List Char :=
  match cs with
  | '+' :: r => (false, r)
  | '-' :: r => (true, r)
  | r => (false, r)

/-- `i8::from_str`: optional sign, one or more ASCII digits, value within
`[-128, 127]`; anything else (leading/trailing space included) fails. -/
def parse_i8 (s : String) : Option Int :=
  let (neg, rest) := splitSign s.data
  if rest = [] then none
  else if !(rest.all Char.isDigit) then none
  else
    let v : Int := if neg then -(digitsVal rest : Int) else (digitsVal rest : Int)
    if -128 ≤ v ∧ v ≤ 127 then some v else none

/-- Model of Rust `f64`: an exact rational, NaN, or a signed infinity
(`inf true` is negative infinity).  See the header comment for the
idealisation. -/
inductive F64 where
  | finite (q : ℚ)
  | inf (neg : Bool)
  | nan
deriving DecidableEq

/-- Fuel-driven binary logarithm (`Nat.log2` does not reduce in proofs, as
it recurses by well-founded recursion). -/
def log2Fuel : Nat → Nat → Nat
  | 0, _ => 0
  | fuel + 1, n => if 2 ≤ n then log2Fuel fuel (n / 2) + 1 else 0

/-- Floor of the binary logarithm: for `n ≥ 1`, the unique `k` with
`2^k ≤ n < 2^(k+1)`. -/
def natLog2 (n : Nat) : Nat := log2Fuel n n

/-- Power of two with an integer exponent, as an exact rational. -/
def pow2 (e : Int) : ℚ :=
  if 0 ≤ e then ((2 ^ e.toNat : Nat) : ℚ) else 1 / ((2 ^ (-e).toNat : Nat) : ℚ)

/-- Round a rational to the nearest integer, ties to the even integer. -/
def roundNearestEven (q : ℚ) : Int :=
  let n : Int := ⌊q⌋
  let r : ℚ := q - (n : ℚ)
  if r < 1 / 2 then n
  else if 1 / 2 < r then n + 1
  else if n % 2 = 0 then n else n + 1

/-- For positive `q`, the unique `e` with `2^e ≤ q < 2^(e+1)`, computed by
scaling the numerator so that the integer quotient is at least one. -/
def floorLog2 (q : ℚ) : Int :=
  let a := q.num.toNat
  let b := q.den
  let t := natLog2 b + 1
  (natLog2 (a * 2 ^ t / b) : Int) - (t : Int)

/-- Round an exact rational to the IEEE binary64 grid: round to nearest,
ties to even, with gradual underflow (denormals on the `2^-1074` grid) and
overflow to infinity.  Every binary64 value is an exact rational, so the
result is carried as that rational. -/
def roundF64 (q : ℚ) : F64 :=
  if q = 0 then F64.finite 0
  else
    let aq : ℚ := if q < 0 then -q else q
    let e : Int := floorLog2 aq
    let sc : Int := if e < -1022 then 1074 else 52 - e
    let m : Int := roundNearestEven (aq * pow2 sc)
    let v : ℚ := (m : ℚ) * pow2 (-sc)
    if ((2 ^ 1024 : Nat) : ℚ) ≤ v then F64.inf (decide (q < 0))
    else F64.finite (if q < 0 then -v else v)

/-- IEEE addition on the model: the exact sum of finite values, rounded. -/
def F64.add : F64 → F64 → F64
  | F64.nan, _ => F64.nan
  | _, F64.nan => F64.nan
  | F64.finite a, F64.finite b => roundF64 (a + b)
  | F64.inf s, F64.finite _ => F64.inf s
  | F64.finite _, F64.inf t => F64.inf t
  | F64.inf s, F64.inf t => if s = t then F64.inf s else F64.nan

/-- IEEE multiplication on the model: the exact product of finite values,
rounded. -/
def F64.mul : F64 → F64 → F64
  | F64.nan, _ => F64.nan
  | _, F64.nan => F64.nan
  | F64.finite a, F64.finite b => roundF64 (a * b)
  | F64.inf s, F64.finite b => if b = 0 then F64.nan else F64.inf (xor s (decide (b < 0)))
  | F64.finite a, F64.inf t => if a = 0 then F64.nan else F64.inf (xor t (decide (a < 0)))
  | F64.inf s, F64.inf t => F64.inf (xor s t)

/-- IEEE division on the model: the exact quotient of finite values,
rounded; `0/0` is NaN, `x/0` for `x ≠ 0` is a signed infinity. -/
def F64.div : F64 → F64 → F64
  | F64.nan, _ => F64.nan
  | _, F64.nan => F64.nan
  | F64.finite a, F64.finite b =>
    if b = 0 then (if a = 0 then F64.nan else F64.inf (decide (a < 0)))
    else roundF64 (a / b)
  | F64.finite _, F64.inf _ => F64.finite 0
  | F64.inf s, F64.finite b => F64.inf (xor s (decide (b < 0)))
  | F64.inf _, F64.inf _ => F64.nan

/-- Rust `as u64` on an `f64`: NaN to 0, truncation toward zero, saturating
at the bounds of `u64`. -/
def F64.toU64 : F64 → Nat
  | F64.nan => 0
  | F64.inf neg => if neg then 0 else 2 ^ 64 - 1
  | F64.finite q => if q < 0 then 0 else min (2 ^ 64 - 1) (Int.toNat ⌊q⌋)

/-- Power of ten with an integer exponent, as an exact rational. -/
def pow10 (e : Int) : ℚ :=
  if 0 ≤ e then ((10 : ℚ) ^ e.toNat) else 1 / (10 : ℚ) ^ (-e).toNat

/-- Parse the optional exponent suffix of a float literal: empty input means
exponent 0; otherwise `e`/`E`, an optional sign and at least one digit. -/
def parseExponent (cs : List Char) : Option Int :=
  match cs with
  | [] => some 0
  | e :: r =>
    if e = 'e' ∨ e = 'E' then
      let (eneg, r2) := splitSign r
      if r2 = [] then none
      else if !(r2.all Char.isDigit) then none
      else some (if eneg then -(digitsVal r2 : Int) else (digitsVal r2 : Int))
    else none

/-- `f64::from_str`: optional sign, then `inf`/`infinity`/`nan`
(ASCII-case-insensitive) or a decimal significand with an optional
exponent.  The exact decimal value is rounded to the nearest binary64,
matching Rust's correctly rounded conversion. -/
def parse_f64 (s : String) : Option F64 :=
  let (neg, rest) := splitSign s.data
  let low := rest.map Char.toLower
  if low = "inf".data ∨ low = "infinity".data then some (F64.inf neg)
  else if low = "nan".data then some F64.nan
  else
    let ipart := rest.takeWhile Char.isDigit
    let rest1 := rest.dropWhile Char.isDigit
    let fpart := match rest1 with
      | '.' :: r => r.takeWhile Char.isDigit
      | _ => []
    let rest2 := match rest1 with
      | '.' :: r => r.dropWhile Char.isDigit
      | r => r
    if ipart = [] ∧ fpart = [] then none
    else
      match parseExponent rest2 with
      | none => none
      | some e =>
        let mant : ℚ := (digitsVal ipart : ℚ) +
          (digitsVal fpart : ℚ) / (10 : ℚ) ^ fpart.length
        let v : ℚ := mant * pow10 e
        some (roundF64 (if neg then -v else v))

/-- The uniform error type of the program: a unit-like struct carrying no
information about its cause. -/
inductive PowerError where
  | mk
deriving DecidableEq

/-- Model of `std::io::Error` (only the distinctions the claims need). -/
inductive IOError where
  | notFound
  | permissionDenied
  | other
deriving DecidableEq

/-- Model of `std::num::ParseIntError`. -/
inductive ParseIntError where
  | empty
  | invalidDigit
  | overflow
deriving DecidableEq

/-- Model of `std::num::ParseFloatError`. -/
inductive ParseFloatError where
  | invalid
deriving DecidableEq

/-- Model of `std::string::ParseError`, which has no values. -/
inductive StrParseError where

/-- `impl From<io::Error> for PowerError`: the cause is discarded. -/
def powerErrorFromIOError : IOError → PowerError := fun _ => PowerError.mk

/-- `impl From<num::ParseIntError> for PowerError`: the cause is discarded. -/
def powerErrorFromParseIntError : ParseIntError → PowerError := fun _ => PowerError.mk

/-- `impl From<num::ParseFloatError> for PowerError`: the cause is discarded. -/
def powerErrorFromParseFloatError : ParseFloatError → PowerError := fun _ => PowerError.mk

/-- `impl From<string::ParseError> for PowerError` (vacuous). -/
def powerErrorFromStrParseError : StrParseError → PowerError := fun _ => PowerError.mk

/-- The filesystem: a map from a path (list of segments) to file contents;
`none` models a missing file or an I/O failure. -/
structure FileSystem where
  read : List String → Option String

/-- `struct PowerSupply { base_path: PathBuf }`, with `PathBuf` as a list of
path segments. -/
structure PowerSupply where
  base_path : List String
deriving DecidableEq

/-- `PowerSupply::new`. -/
def PowerSupply.new (path : List String) : PowerSupply :=
  { base_path := path }

/-- `PowerSupply::name`: the final path segment (`file_name().unwrap()`).
The `unwrap` cannot fail on the paths `main` constructs; the default `""`
stands for the unreachable panic. -/
def PowerSupply.name (ps : PowerSupply) : String :=
  ps.base_path.getLastD ""

/-- `PowerSupply::read_prop::<T>`: open `<base_path>/<prop_name>`, read it
as text, strip trailing whitespace, and parse with `T`'s parser.  Every
failure collapses to the uniform `PowerError`. -/
def read_prop (fs : FileSystem) (ps : PowerSupply) (prop_name : String)
    (parse : String → Option α) : Except PowerError α :=
  match fs.read (ps.base_path ++ [prop_name]) with
  | none => Except.error PowerError.mk
  | some contents =>
    match parse (trim_right contents) with
    | none => Except.error PowerError.mk
    | some v => Except.ok v

/-- `PowerSupply::is_battery`: the `type` attribute equals `"Battery"`. -/
def is_battery (fs : FileSystem) (ps : PowerSupply) : Except PowerError Bool :=
  (read_prop fs ps "type" parseString).map (fun s => s == "Battery")

/-- `PowerSupply::percent`: the `capacity` attribute as an `i8`. -/
def percent (fs : FileSystem) (ps : PowerSupply) : Except PowerError Int :=
  read_prop fs ps "capacity" parse_i8

/-- `PowerSupply::status`: the `status` attribute as a `String`. -/
def status (fs : FileSystem) (ps : PowerSupply) : Except PowerError String :=
  read_prop fs ps "status" parseString

/-- Rust `std::time::Duration` (seconds and nanoseconds). -/
structure Duration where
  secs : Nat
  nanos : Nat
deriving DecidableEq

/-- `Duration::from_millis`. -/
def Duration.from_millis (ms : Nat) : Duration :=
  { secs := ms / 1000, nanos := ms % 1000 * 1000000 }

/-- `Duration::as_secs`. -/
def Duration.as_secs (d : Duration) : Nat := d.secs

/-- Read a float property from each battery in order, stopping at the first
failure (`.expect("Could not read battery")` panics there). -/
def readFloats (fs : FileSystem) (prop : String) : List PowerSupply → Option (List F64)
  | [] => some []
  | b :: rest => do
    let v ← (read_prop fs b prop parse_f64).toOption
    let vs ← readFloats fs prop rest
    pure (v :: vs)

/-- `combined_runtime`'s `total_energy`: the fold of `energy_now` over all
batteries, starting from `0f64`. -/
def total_energy (fs : FileSystem) (bats : List PowerSupply) : Option F64 :=
  (readFloats fs "energy_now" bats).map (fun l => l.foldl F64.add (F64.finite 0))

/-- `combined_runtime`'s `total_power`: the fold of `power_now` over all
batteries, starting from `0f64`. -/
def total_power (fs : FileSystem) (bats : List PowerSupply) : Option F64 :=
  (readFloats fs "power_now" bats).map (fun l => l.foldl F64.add (F64.finite 0))

/-- `fn combined_runtime`: total energy over total power in hours, scaled
to milliseconds by `* 60 * 60 * 1000`, cast `as u64` and wrapped in a
`Duration`; `none` models the panic of `.expect` on a read failure. -/
def combined_runtime (fs : FileSystem) (bats : List PowerSupply) : Option Duration := do
  let te ← total_energy fs bats
  let tp ← total_power fs bats
  let runtime := F64.div te tp
  let runtime_ms := F64.mul (F64.mul (F64.mul runtime (F64.finite 60)) (F64.finite 60)) (F64.finite 1000)
  pure (Duration.from_millis (F64.toU64 runtime_ms))

/-- `fn format_time`: render a duration as `<hours>h<minutes>m` from its
whole seconds. -/
def format_time (d : Duration) : String :=
  let seconds := d.as_secs
  let hours := seconds / 3600
  let seconds2 := seconds - hours * 3600
  let minutes := seconds2 / 60
  toString hours ++ "h" ++ toString minutes ++ "m"

/-- `const POWER_PATH`. -/
def POWER_PATH : String := "/sys/class/power_supply"

/-- The filter step of `main`: keep entries classified as batteries,
aborting (`none`) on the first classification error
(`.expect("can't list batteries")`). -/
def filterBatteries (fs : FileSystem) : List PowerSupply → Option (List PowerSupply)
  | [] => some []
  | ps :: rest =>
    match (is_battery fs ps).toOption with
    | none => none
    | some b => (filterBatteries fs rest).map (fun l => if b then ps :: l else l)

/-- One per-battery report line of `main`:
`<name>: <percent>% (<status>)`; `none` models the panic of
`.expect("Could not read battery")`. -/
def batteryLine (fs : FileSystem) (b : PowerSupply) : Option String := do
  let p ← (percent fs b).toOption
  let s ← (status fs b).toOption
  pure (b.name ++ ": " ++ toString p ++ "% (" ++ s ++ ")")

/-- All per-battery report lines, in order, aborting at the first failure. -/
def batteryLines (fs : FileSystem) : List PowerSupply → Option (List String)
  | [] => some []
  | b :: rest => do
    let l ← batteryLine fs b
    let ls ← batteryLines fs rest
    pure (l :: ls)

/-- `fn main`, as the list of lines printed to standard output given the
filesystem and the children of `POWER_PATH` in directory-listing order;
`none` models a panic. -/
def main_output (fs : FileSystem) (dir : List String) : Option (List String) := do
  let batteries ← filterBatteries fs
    (dir.map (fun child => PowerSupply.new [POWER_PATH, child]))
  let lines ← batteryLines fs batteries
  let d ← combined_runtime fs batteries
  pure (lines ++ ["Estimated runtime (all batteries): " ++ format_time d])

/-- The end-to-end test filesystem: two battery directories BAT0 and BAT1
with the attribute values of the end-to-end scenario of the spec. -/
def two_battery_fs : FileSystem :=
  { read := fun p =>
      if p = [POWER_PATH, "BAT0", "type"] then some "Battery\n"
      else if p = [POWER_PATH, "BAT0", "capacity"] then some "50\n"
      else if p = [POWER_PATH, "BAT0", "status"] then some "Discharging\n"
      else if p = [POWER_PATH, "BAT0", "energy_now"] then some "30000000\n"
      else if p = [POWER_PATH, "BAT0", "power_now"] then some "15000000\n"
      else if p = [POWER_PATH, "BAT1", "type"] then some "Battery\n"
      else if p = [POWER_PATH, "BAT1", "capacity"] then some "80\n"
      else if p = [POWER_PATH, "BAT1", "status"] then some "Discharging\n"
      else if p = [POWER_PATH, "BAT1", "energy_now"] then some "40000000\n"
      else if p = [POWER_PATH, "BAT1", "power_now"] then some "10000000\n"
      else none }

/-- A filesystem with no readable files at all. -/
def empty_fs : FileSystem := { read := fun _ => none }

/-- A filesystem holding a single battery attribute file
`<POWER_PATH>/BAT0/<prop>` with the given contents. -/
def one_file_fs (prop contents : String) : FileSystem :=
  { read := fun p => if p = [POWER_PATH, "BAT0", prop] then some contents else none }

/-- The power-supply entry at `<POWER_PATH>/BAT0`. -/
def bat0_entry : PowerSupply := PowerSupply.new [POWER_PATH, "BAT0"]

/-- A successfully parsed `i8` lies in the 8-bit signed range. -/
lemma parse_i8_range {s : String} {v : Int} (h : parse_i8 s = some v) :
    -128 ≤ v ∧ v ≤ 127 := by
  unfold parse_i8 at h
  rcases hsp : splitSign s.data with ⟨neg, rest⟩
  rw [hsp] at h
  dsimp only at h
  split_ifs at h
  all_goals injection h with hx
  all_goals subst hx
  all_goals assumption

/-- When the attribute file reads, `read_prop` is exactly the parse of the
trailing-trimmed contents. -/
lemma read_prop_of_read {fs : FileSystem} {ps : PowerSupply} {α : Type}
    {parse : String → Option α} {prop c : String}
    (hc : fs.read (ps.base_path ++ [prop]) = some c) :
    read_prop fs ps prop parse =
      Option.elim (parse (trim_right c)) (Except.error PowerError.mk) Except.ok := by
  simp only [read_prop, hc]
  cases parse (trim_right c) <;> rfl

/-- When the attribute file does not read, `read_prop` is the uniform error. -/
lemma read_prop_of_none {fs : FileSystem} {ps : PowerSupply} {α : Type}
    {parse : String → Option α} {prop : String}
    (hc : fs.read (ps.base_path ++ [prop]) = none) :
    read_prop fs ps prop parse = Except.error PowerError.mk := by
  simp only [read_prop, hc]

/-- C1: for every power-supply entry, `is_battery` returns `Ok true` iff the
`type` attribute file reads successfully and its contents, with trailing
(not leading) whitespace stripped, equal "Battery" exactly; when the file
reads, the classification is exactly that case-sensitive comparison. -/
theorem is_battery_spec (fs : FileSystem) (ps : PowerSupply) :
    (∀ c, fs.read (ps.base_path ++ ["type"]) = some c →
      is_battery fs ps = Except.ok (trim_right c == "Battery")) ∧
    (is_battery fs ps = Except.ok true ↔
      ∃ c, fs.read (ps.base_path ++ ["type"]) = some c ∧ trim_right c = "Battery") := by
  have hmain : ∀ c, fs.read (ps.base_path ++ ["type"]) = some c →
      is_battery fs ps = Except.ok (trim_right c == "Battery") := by
    intro c hc
    unfold is_battery
    rw [read_prop_of_read hc]
    rfl
  refine ⟨hmain, ?_, ?_⟩
  · intro h
    cases hc : fs.read (ps.base_path ++ ["type"]) with
    | none =>
      unfold is_battery at h
      rw [read_prop_of_none hc] at h
      simp [Except.map] at h
    | some c =>
      rw [hmain c hc] at h
      simp at h
      exact ⟨c, rfl, h⟩
  · rintro ⟨c, hc, htrim⟩
    rw [hmain c hc, htrim]
    simp

/-- Witness for C1: with a `type` file containing "Battery" plus a trailing
newline the classification is the comparison of the trimmed contents. -/
theorem is_battery_spec_witness :
    is_battery (one_file_fs "type" "Battery\n") bat0_entry =
      Except.ok (trim_right "Battery\n" == "Battery") :=
  (is_battery_spec (one_file_fs "type" "Battery\n") bat0_entry).1 "Battery\n" rfl

/-- C4: `format_time` renders a duration as floor hours and floor
leftover minutes, truncating fractional minutes and seconds; 2.5 hours
(9000000 ms) gives "2h30m" and 0.99 hours (3564000 ms) gives "0h59m". -/
theorem format_time_spec :
    (∀ d : Duration, format_time d =
      toString (d.as_secs / 3600) ++ "h" ++ toString (d.as_secs % 3600 / 60) ++ "m") ∧
    format_time (Duration.from_millis 9000000) = "2h30m" ∧
    format_time (Duration.from_millis 3564000) = "0h59m" := by
  refine ⟨?_, by decide, by decide⟩
  intro d
  have h : d.as_secs - d.as_secs / 3600 * 3600 = d.as_secs % 3600 := by omega
  simp only [format_time]
  rw [h]

/-- C5: `read_prop` parses the trailing-trimmed file contents (leading
whitespace kept): a generic equation plus the two capacity instances
"87\n" (parses to 87) and " 87\n" (leading space, fails). -/
theorem read_prop_trim_spec (fs : FileSystem) (ps : PowerSupply) :
    (∀ (α : Type) (parse : String → Option α) (prop c : String),
      fs.read (ps.base_path ++ [prop]) = some c →
      read_prop fs ps prop parse =
        Option.elim (parse (trim_right c)) (Except.error PowerError.mk) Except.ok) ∧
    (fs.read (ps.base_path ++ ["capacity"]) = some "87\n" →
      percent fs ps = Except.ok 87) ∧
    (fs.read (ps.base_path ++ ["capacity"]) = some " 87\n" →
      percent fs ps = Except.error PowerError.mk) := by
  refine ⟨?_, ?_, ?_⟩
  · intro α parse prop c hc
    exact read_prop_of_read hc
  · intro hc
    simp only [percent, read_prop, hc]
    rfl
  · intro hc
    simp only [percent, read_prop, hc]
    rfl

/-- Witness for C5: the capacity instances at a concrete filesystem. -/
theorem read_prop_trim_spec_witness :
    percent (one_file_fs "capacity" "87\n") bat0_entry = Except.ok 87 ∧
    percent (one_file_fs "capacity" " 87\n") bat0_entry = Except.error PowerError.mk :=
  ⟨(read_prop_trim_spec (one_file_fs "capacity" "87\n") bat0_entry).2.1 rfl,
   (read_prop_trim_spec (one_file_fs "capacity" " 87\n") bat0_entry).2.2 rfl⟩

/-- C9: `capacity` is parsed as an 8-bit signed integer with no 0-100
validation: 120 and -5 are accepted, 200 is rejected, every canonical
decimal in [-128, 127] parses to itself, and every accepted value lies in
the i8 range. -/
theorem percent_i8_spec (fs : FileSystem) (ps : PowerSupply) :
    (fs.read (ps.base_path ++ ["capacity"]) = some "120\n" →
      percent fs ps = Except.ok 120) ∧
    (fs.read (ps.base_path ++ ["capacity"]) = some "-5\n" →
      percent fs ps = Except.ok (-5)) ∧
    (fs.read (ps.base_path ++ ["capacity"]) = some "200\n" →
      percent fs ps = Except.error PowerError.mk) ∧
    (∀ n : Int, -128 ≤ n → n ≤ 127 → parse_i8 (toString n) = some n) ∧
    (∀ v : Int, percent fs ps = Except.ok v → -128 ≤ v ∧ v ≤ 127) := by
  refine ⟨?_, ?_, ?_, ?_, ?_⟩
  · intro hc
    simp only [percent, read_prop, hc]
    rfl
  · intro hc
    simp only [percent, read_prop, hc]
    rfl
  · intro hc
    simp only [percent, read_prop, hc]
    rfl
  · have hall : ∀ n ∈ Finset.Icc (-128 : ℤ) 127, parse_i8 (toString n) = some n := by decide
    intro n h1 h2
    exact hall n (Finset.mem_Icc.mpr ⟨h1, h2⟩)
  · intro v h
    unfold percent at h
    cases hr : fs.read (ps.base_path ++ ["capacity"]) with
    | none =>
      rw [read_prop_of_none hr] at h
      injection h
    | some c =>
      rw [read_prop_of_read hr] at h
      cases hp : parse_i8 (trim_right c) with
      | none =>
        rw [hp] at h
        injection h
      | some w =>
        rw [hp] at h
        injection h with hw
        exact hw ▸ parse_i8_range hp

/-- Witness for C9: the three capacity instances and one canonical decimal. -/
theorem percent_i8_spec_witness :
    percent (one_file_fs "capacity" "120\n") bat0_entry = Except.ok 120 ∧
    percent (one_file_fs "capacity" "-5\n") bat0_entry = Except.ok (-5) ∧
    percent (one_file_fs "capacity" "200\n") bat0_entry = Except.error PowerError.mk ∧
    parse_i8 (toString (-5 : Int)) = some (-5) :=
  ⟨(percent_i8_spec (one_file_fs "capacity" "120\n") bat0_entry).1 rfl,
   (percent_i8_spec (one_file_fs "capacity" "-5\n") bat0_entry).2.1 rfl,
   (percent_i8_spec (one_file_fs "capacity" "200\n") bat0_entry).2.2.1 rfl,
   (percent_i8_spec empty_fs bat0_entry).2.2.2.1 (-5) (by decide) (by decide)⟩

/-- C7: every failure mode of an attribute read collapses to the single
uniform `PowerError` value: the error type has exactly one value, each
`From` conversion discards its cause, and `read_prop` either succeeds or
returns exactly that value. -/
theorem power_error_uniform :
    (∀ a b : PowerError, a = b) ∧
    (∀ e : IOError, powerErrorFromIOError e = PowerError.mk) ∧
    (∀ e : ParseIntError, powerErrorFromParseIntError e = PowerError.mk) ∧
    (∀ e : ParseFloatError, powerErrorFromParseFloatError e = PowerError.mk) ∧
    (∀ (α : Type) (fs : FileSystem) (ps : PowerSupply) (prop : String)
        (parse : String → Option α),
      read_prop fs ps prop parse = Except.error PowerError.mk ∨
        ∃ v, read_prop fs ps prop parse = Except.ok v) := by
  refine ⟨fun a b => by cases a; cases b; rfl, fun _ => rfl, fun _ => rfl, fun _ => rfl, ?_⟩
  intro α fs ps prop parse
  cases hr : fs.read (ps.base_path ++ [prop]) with
  | none => exact Or.inl (read_prop_of_none hr)
  | some c =>
    rw [read_prop_of_read hr]
    cases parse (trim_right c) with
    | none => exact Or.inl rfl
    | some v => exact Or.inr ⟨v, rfl⟩

/-- A classification error on any list element makes the whole filter step
abort. -/
lemma filterBatteries_of_error {fs : FileSystem} :
    ∀ {l : List PowerSupply} {ps : PowerSupply}, ps ∈ l →
      is_battery fs ps = Except.error PowerError.mk →
      filterBatteries fs l = none := by
  intro l
  induction l with
  | nil => intro ps h _; exact absurd h (List.not_mem_nil ps)
  | cons a l ih =>
    intro ps hmem herr
    rcases List.mem_cons.mp hmem with rfl | hmem2
    · unfold filterBatteries
      rw [herr]
      rfl
    · unfold filterBatteries
      cases hb : (is_battery fs a).toOption with
      | none => rfl
      | some b =>
        rw [ih hmem2 herr]
        rfl

/-- C6: if reading or parsing the `type` attribute of any enumerated entry
fails during filtering, `main` aborts: it produces no output at all, rather
than excluding the entry and continuing. -/
theorem classification_failure_fatal (fs : FileSystem) (dir : List String)
    (child : String) (hmem : child ∈ dir)
    (herr : is_battery fs (PowerSupply.new [POWER_PATH, child]) =
      Except.error PowerError.mk) :
    main_output fs dir = none := by
  have hfb : filterBatteries fs
      (dir.map (fun child => PowerSupply.new [POWER_PATH, child])) = none :=
    filterBatteries_of_error (List.mem_map_of_mem _ hmem) herr
  simp [main_output, hfb]

/-- Witness for C6: one unreadable entry aborts the whole run. -/
theorem classification_failure_fatal_witness :
    main_output empty_fs ["BAT0"] = none :=
  classification_failure_fatal empty_fs ["BAT0"] "BAT0"
    (List.mem_singleton.mpr rfl) rfl

/-- C8: with zero batteries both totals fold to `0.0`, and the runtime
computation is exactly the division `0.0 / 0.0` (which is NaN) scaled by
`* 60 * 60 * 1000`. -/
theorem zero_batteries_divide_zero (fs : FileSystem) :
    total_energy fs [] = some (F64.finite 0) ∧
    total_power fs [] = some (F64.finite 0) ∧
    F64.div (F64.finite 0) (F64.finite 0) = F64.nan ∧
    combined_runtime fs [] =
      some (Duration.from_millis (F64.toU64 (F64.mul (F64.mul (F64.mul
        (F64.div (F64.finite 0) (F64.finite 0)) (F64.finite 60)) (F64.finite 60))
        (F64.finite 1000)))) :=
  ⟨rfl, rfl, rfl, rfl⟩

/-- C10: when the battery filter yields an empty list, `0.0 / 0.0` is NaN,
the `as u64` conversion maps NaN to 0, and the program prints exactly the
summary line "Estimated runtime (all batteries): 0h0m" with no per-battery
lines and without aborting. -/
theorem empty_battery_list_output (fs : FileSystem) (dir : List String)
    (hb : filterBatteries fs
      (dir.map (fun child => PowerSupply.new [POWER_PATH, child])) = some []) :
    F64.div (F64.finite 0) (F64.finite 0) = F64.nan ∧
    F64.toU64 F64.nan = 0 ∧
    main_output fs dir = some ["Estimated runtime (all batteries): 0h0m"] := by
  refine ⟨rfl, rfl, ?_⟩
  unfold main_output
  rw [hb]
  rfl

/-- Witness for C10: an empty power-supply directory. -/
theorem empty_battery_list_output_witness :
    F64.div (F64.finite 0) (F64.finite 0) = F64.nan ∧
    F64.toU64 F64.nan = 0 ∧
    main_output empty_fs [] = some ["Estimated runtime (all batteries): 0h0m"] :=
  empty_battery_list_output empty_fs [] rfl

/-- C3: the end-to-end scenario: BAT0 at 50% discharging with 30000000 µWh
and 15000000 µW, BAT1 at 80% discharging with 40000000 µWh and 10000000 µW;
the program prints the two battery lines and a combined runtime of 2h48m
(70000000 / 25000000 = 2.8 hours = 10080000 ms). -/
theorem main_end_to_end :
    main_output two_battery_fs ["BAT0", "BAT1"] =
      some ["BAT0: 50% (Discharging)", "BAT1: 80% (Discharging)",
        "Estimated runtime (all batteries): 2h48m"] := by
  decide

/-- Per-battery float reads that all succeed with finite values produce
exactly those values, in order. -/
lemma readFloats_of_map {fs : FileSystem} {prop : String} :
    ∀ {bats : List PowerSupply} {qs : List ℚ},
      bats.map (fun b => read_prop fs b prop parse_f64) =
        qs.map (fun q => Except.ok (F64.finite q)) →
      readFloats fs prop bats = some (qs.map F64.finite) := by
  intro bats
  induction bats with
  | nil =>
    intro qs h
    have hq : qs = [] := by
      cases qs with
      | nil => rfl
      | cons q qs => simp at h
    subst hq
    rfl
  | cons b bs ih =>
    intro qs h
    cases qs with
    | nil => simp at h
    | cons q qs =>
      simp only [List.map] at h
      injection h with h1 h2
      unfold readFloats
      rw [h1, ih h2]
      rfl

/-- The summed `energy_now` total over batteries whose reads succeed, when
the IEEE fold happens to be exact. -/
lemma total_energy_of_map {fs : FileSystem} {bats : List PowerSupply}
    {es : List ℚ}
    (he : bats.map (fun b => read_prop fs b "energy_now" parse_f64) =
      es.map (fun q => Except.ok (F64.finite q)))
    (hfe : List.foldl F64.add (F64.finite 0) (es.map F64.finite) =
      F64.finite es.sum) :
    total_energy fs bats = some (F64.finite es.sum) := by
  unfold total_energy
  rw [readFloats_of_map he]
  show some (List.foldl F64.add (F64.finite 0) (es.map F64.finite)) = _
  rw [hfe]

/-- The summed `power_now` total over batteries whose reads succeed, when
the IEEE fold happens to be exact. -/
lemma total_power_of_map {fs : FileSystem} {bats : List PowerSupply}
    {qs : List ℚ}
    (hp : bats.map (fun b => read_prop fs b "power_now" parse_f64) =
      qs.map (fun q => Except.ok (F64.finite q)))
    (hfp : List.foldl F64.add (F64.finite 0) (qs.map F64.finite) =
      F64.finite qs.sum) :
    total_power fs bats = some (F64.finite qs.sum) := by
  unfold total_power
  rw [readFloats_of_map hp]
  show some (List.foldl F64.add (F64.finite 0) (qs.map F64.finite)) = _
  rw [hfp]

/-- C2 (amended): for batteries whose `energy_now` reads give [E1, E2, ...]
and whose `power_now` reads give [P1, P2, ...], when every IEEE operation
involved is exact (the additions of both folds, the division, and each of
the three scaling multiplications round to their exact result), with a
nonzero power total, a nonnegative quotient and no u64 overflow,
`combined_runtime` is the duration of sum(Ei) / sum(Pi) hours converted to
milliseconds with the fractional part truncated.  The exactness hypotheses
are necessary: see the counterexample with energy 0.3 and power 0.1. -/
theorem combined_runtime_exact_steps (fs : FileSystem) (bats : List PowerSupply)
    (es qs : List ℚ)
    (he : bats.map (fun b => read_prop fs b "energy_now" parse_f64) =
      es.map (fun q => Except.ok (F64.finite q)))
    (hp : bats.map (fun b => read_prop fs b "power_now" parse_f64) =
      qs.map (fun q => Except.ok (F64.finite q)))
    (hfe : List.foldl F64.add (F64.finite 0) (es.map F64.finite) =
      F64.finite es.sum)
    (hfp : List.foldl F64.add (F64.finite 0) (qs.map F64.finite) =
      F64.finite qs.sum)
    (hp0 : qs.sum ≠ 0)
    (hdiv : roundF64 (es.sum / qs.sum) = F64.finite (es.sum / qs.sum))
    (hm1 : roundF64 (es.sum / qs.sum * 60) = F64.finite (es.sum / qs.sum * 60))
    (hm2 : roundF64 (es.sum / qs.sum * 60 * 60) =
      F64.finite (es.sum / qs.sum * 60 * 60))
    (hm3 : roundF64 (es.sum / qs.sum * 60 * 60 * 1000) =
      F64.finite (es.sum / qs.sum * 60 * 60 * 1000))
    (hnn : 0 ≤ es.sum / qs.sum)
    (hub : es.sum / qs.sum * 3600000 < 2 ^ 64) :
    combined_runtime fs bats =
      some (Duration.from_millis (Int.toNat ⌊es.sum / qs.sum * 3600000⌋)) := by
  unfold combined_runtime
  rw [total_energy_of_map he hfe, total_power_of_map hp hfp]
  show some (Duration.from_millis (F64.toU64 (F64.mul (F64.mul (F64.mul
    (F64.div (F64.finite es.sum) (F64.finite qs.sum)) (F64.finite 60))
    (F64.finite 60)) (F64.finite 1000)))) = _
  have hdiv2 : F64.div (F64.finite es.sum) (F64.finite qs.sum) =
      F64.finite (es.sum / qs.sum) := by
    simp [F64.div, hp0, hdiv]
  rw [hdiv2]
  rw [show F64.mul (F64.finite (es.sum / qs.sum)) (F64.finite 60) =
    roundF64 (es.sum / qs.sum * 60) from rfl, hm1]
  rw [show F64.mul (F64.finite (es.sum / qs.sum * 60)) (F64.finite 60) =
    roundF64 (es.sum / qs.sum * 60 * 60) from rfl, hm2]
  rw [show F64.mul (F64.finite (es.sum / qs.sum * 60 * 60)) (F64.finite 1000) =
    roundF64 (es.sum / qs.sum * 60 * 60 * 1000) from rfl, hm3]
  have harith : es.sum / qs.sum * 60 * 60 * 1000 = es.sum / qs.sum * 3600000 := by
    ring
  rw [harith]
  have hq : ¬(es.sum / qs.sum * 3600000 < 0) :=
    not_lt.mpr (mul_nonneg hnn (by norm_num))
  have hfl : ⌊es.sum / qs.sum * 3600000⌋ < (2 : ℤ) ^ 64 := by
    rw [Int.floor_lt]
    push_cast
    exact hub
  have hle : Int.toNat ⌊es.sum / qs.sum * 3600000⌋ ≤ 2 ^ 64 - 1 := by
    norm_num at hfl ⊢
    omega
  simp only [F64.toU64]
  rw [if_neg hq, min_eq_right hle]

/-- A filesystem with one battery whose energy reads 1.0 and power 2.0. -/
def half_hour_fs : FileSystem :=
  { read := fun p =>
      if p = [POWER_PATH, "BAT0", "energy_now"] then some "1\n"
      else if p = [POWER_PATH, "BAT0", "power_now"] then some "2\n"
      else none }

/-- Witness for C2: one battery with energy 1 and power 2, where every IEEE
step is exact, gives the duration of half an hour in milliseconds. -/
theorem combined_runtime_exact_steps_witness :
    combined_runtime half_hour_fs [bat0_entry] =
      some (Duration.from_millis
        (Int.toNat ⌊List.sum [(1 : ℚ)] / List.sum [(2 : ℚ)] * 3600000⌋)) :=
  combined_runtime_exact_steps half_hour_fs [bat0_entry] [1] [2]
    rfl rfl (by decide) (by decide) (by decide) (by decide)
    (by decide) (by decide) (by decide) (by decide) (by decide)

/-- A filesystem with one battery whose energy reads 0.3 and power 0.1:
neither decimal is representable in binary64, and the division rounds. -/
def rounding_cex_fs : FileSystem :=
  { read := fun p =>
      if p = [POWER_PATH, "BAT0", "energy_now"] then some "0.3\n"
      else if p = [POWER_PATH, "BAT0", "power_now"] then some "0.1\n"
      else none }

/-- Counterexample to C2 as stated: with energy 0.3 and power 0.1 the
exact formula demands floor(0.3 / 0.1 * 3600000) = 10800000 ms (3h0m), but
the IEEE computation gives 0.3 / 0.1 = 2.9999999999999996, which scales to
10799999.999999998 and truncates to 10799999 ms (2h59m). -/
theorem combined_runtime_rounding_counterexample :
    combined_runtime rounding_cex_fs [bat0_entry] ≠
      some (Duration.from_millis (Int.toNat
        ⌊List.sum [(3 / 10 : ℚ)] / List.sum [(1 / 10 : ℚ)] * 3600000⌋)) ∧
    combined_runtime rounding_cex_fs [bat0_entry] =
      some (Duration.from_millis 10799999) ∧
    Int.toNat ⌊List.sum [(3 / 10 : ℚ)] / List.sum [(1 / 10 : ℚ)] * 3600000⌋ =
      10800000 := by
  refine ⟨by decide, by decide, by decide⟩
